import Mathlib

/-!
# Verification of the WebLLM bridge manager

Shallow embedding of `src/cognitio_app/backend/api/views/webllm_views.py`:
the `WebLLMBridgeManager` class (request registry, response queues,
completion events), the streaming adapter `stream_webllm_response`, and the
content-validation guard of the `webllm_chat` endpoint.

Modelling conventions:
* Request ids (Python `uuid4` strings) are `Nat`; a theorem about a fresh id
  carries the freshness hypothesis that `uuid4` provides in the code.
* Python `dict` (insertion-ordered) is an association list `List (Nat × α)`:
  lookup takes the first binding, assignment replaces in place or appends,
  `pop` removes the key.
* `datetime.now()` timestamps are `Nat` seconds, passed explicitly.
* `threading.Event` is a `Bool` (set / not set).  Real-time blocking is
  abstracted: `wait_for_completion` takes, besides the state at call time, a
  boolean saying whether the event gets set during the wait window, and
  `_remove_request` reports whether it signalled the event it removed.
* The float field `temperature` plays no role in any claim and is omitted.
-/

namespace WebLLMBridge

/-- Python dict lookup `d.get(k)`: first binding for the key, if any. -/
def alookup (k : Nat) : List (Nat × α) → Option α
  | [] => none
  | p :: ps => if p.1 = k then some p.2 else alookup k ps

/-- Python dict assignment `d[k] = v`: replace the binding in place if the
key is present (keeping its position), otherwise append it at the end. -/
def aupd (k : Nat) (v : α) : List (Nat × α) → List (Nat × α)
  | [] => [(k, v)]
  | p :: ps => if p.1 = k then (k, v) :: ps else p :: aupd k v ps

/-- Python `d.pop(k, None)`: drop the bindings for the key. -/
def aremove (k : Nat) : List (Nat × α) → List (Nat × α)
  | [] => []
  | p :: ps => if p.1 = k then aremove k ps else p :: aremove k ps

/-- Keys of an association list appear at most once. -/
def NoDupKeys (l : List (Nat × α)) : Prop :=
  (l.map Prod.fst).Nodup

/-! ## Data model (`webllm_views.py`, lines 22-70) -/

/-- `DEFAULT_WEBLLM_TIMEOUT = 180` (line 23). -/
def DEFAULT_WEBLLM_TIMEOUT : Nat := 180

/-- `MAX_CONCURRENT_REQUESTS = 10` (line 24). -/
def MAX_CONCURRENT_REQUESTS : Nat := 10

/-- `REQUEST_TTL = 600` (line 26). -/
def REQUEST_TTL : Nat := 600

/-- `WebLLMRequest` dataclass (lines 28-42).  The float `temperature` is
omitted (no claim mentions it); times are `Nat` seconds. -/
structure WebLLMRequest where
  request_id : Nat
  request_type : String
  content : String
  system_prompt : String
  model : String
  max_tokens : Nat
  stream : Bool
  timeout : Nat
  session_id : Option String
  created_at : Nat
  status : String
  deriving DecidableEq, Repr

/-- `WebLLMResponse` dataclass (lines 62-70).  `usage` is the usage dict;
only its key-value content and emptiness matter to the code. -/
structure WebLLMResponse where
  request_id : Nat
  content : String
  error : Option String
  usage : List (String × Nat)
  done : Bool
  deriving DecidableEq, Repr

/-- Python truthiness of the `error: Optional[str]` field: `None` and the
empty string are falsy. -/
def errTruthy : Option String → Bool
  | none => false
  | some e => !e.isEmpty

/-- The three dict fields of `WebLLMBridgeManager` (lines 80-84): requests,
response queues, completion events (`Bool` = event set). -/
structure BridgeState where
  requests : List (Nat × WebLLMRequest)
  response_queues : List (Nat × List WebLLMResponse)
  completion_events : List (Nat × Bool)
  deriving DecidableEq, Repr

/-- Freshly constructed manager: all three dicts empty (lines 80-84). -/
def initState : BridgeState := ⟨[], [], []⟩

/-! ## Bridge manager operations -/

/-- `_remove_request` (lines 117-123): pop the id from all three dicts; when
a completion event existed it is `set()` first, unblocking waiters.  The
returned `Bool` records whether that signal happened. -/
def removeRequest (rid : Nat) (s : BridgeState) : BridgeState × Bool :=
  (⟨aremove rid s.requests, aremove rid s.response_queues,
    aremove rid s.completion_events⟩,
   (alookup rid s.completion_events).isSome)

/-- The incoming `request_data` dict of `create_request`: each field may be
absent (`dict.get` default applies). -/
structure RequestData where
  rtype : Option String
  content : Option String
  system_prompt : Option String
  model : Option String
  max_tokens : Option Nat
  stream : Option Bool
  timeout : Option Nat
  session_id : Option String
  deriving DecidableEq, Repr

/-- `request_data` with every field absent. -/
def emptyData : RequestData :=
  ⟨none, none, none, none, none, none, none, none⟩

/-- One comparison step of Python `min(..., key=created_at)`: replace the
best-so-far only on a strictly smaller key (first wins on ties). -/
def minStep (b q : Nat × WebLLMRequest) : Nat × WebLLMRequest :=
  if q.2.created_at < b.2.created_at then q else b

/-- `min(self._requests.keys(), key=lambda x: self._requests[x].created_at)`
(lines 145-146): Python `min` scans in insertion order and keeps the first
element on ties. -/
def minByCreated : List (Nat × WebLLMRequest) → Option (Nat × WebLLMRequest)
  | [] => none
  | p :: ps => some (ps.foldl minStep p)

/-- Id of the oldest live request by `created_at` (first on ties). -/
def oldestId (l : List (Nat × WebLLMRequest)) : Option Nat :=
  (minByCreated l).map Prod.fst

/-- The capacity check of `create_request` (lines 143-148): when
`len(self._requests) >= MAX_CONCURRENT_REQUESTS`, remove the single oldest
(by `created_at`) live request. -/
def evictIfFull (s : BridgeState) : BridgeState :=
  if MAX_CONCURRENT_REQUESTS ≤ s.requests.length then
    match oldestId s.requests with
    | some oid => (removeRequest oid s).1
    | none => s
  else s

/-- The `WebLLMRequest` record built by `create_request` (lines 129-140):
each field from `request_data.get` with its default. -/
def mkRequest (rid now : Nat) (data : RequestData) : WebLLMRequest :=
  { request_id := rid
    request_type := data.rtype.getD "chat"
    content := data.content.getD ""
    system_prompt := data.system_prompt.getD "You are a helpful AI assistant."
    model := data.model.getD "Llama-3.2-1B-Instruct"
    max_tokens := data.max_tokens.getD 4096
    stream := data.stream.getD false
    timeout := data.timeout.getD DEFAULT_WEBLLM_TIMEOUT
    session_id := data.session_id
    created_at := now
    status := "pending" }

/-- `create_request` (lines 125-157).  `rid` stands for the fresh
`uuid.uuid4()` string, `now` for `datetime.now()`.  After the capacity
check, the new request and a fresh (unset) completion event are inserted,
and for a streaming request an empty response queue. -/
def create_request (rid now : Nat) (data : RequestData) (s : BridgeState) :
    WebLLMRequest × BridgeState :=
  (mkRequest rid now data,
   { requests := aupd rid (mkRequest rid now data) (evictIfFull s).requests
     response_queues :=
       if (mkRequest rid now data).stream then
         aupd rid [] (evictIfFull s).response_queues
       else (evictIfFull s).response_queues
     completion_events := aupd rid false (evictIfFull s).completion_events })

/-- `get_pending_requests` (lines 159-162). -/
def get_pending_requests (s : BridgeState) : List WebLLMRequest :=
  (s.requests.map Prod.snd).filter (fun r => r.status == "pending")

/-- `mark_processing` (lines 164-170): any id present in the registry has
its status set to `'processing'` (no check of the current status). -/
def mark_processing (rid : Nat) (s : BridgeState) : Bool × BridgeState :=
  match alookup rid s.requests with
  | some req =>
    (true, { s with requests := aupd rid { req with status := "processing" } s.requests })
  | none => (false, s)

/-- `self._completion_events[request_id].set()`: in-place `Event.set` on the
binding for the id (present under the manager's invariant). -/
def setEvent (rid : Nat) (l : List (Nat × Bool)) : List (Nat × Bool) :=
  l.map (fun p => if p.1 = rid then (p.1, true) else p)

/-- `submit_response` (lines 172-199).  Unknown id: reject, no change.
Streaming request: append to the queue (reject if the queue is missing);
signal completion and set status `'completed'` only when the response is
`done` or carries a truthy `error`.  Non-streaming request: replace the
queue by the singleton, signal completion, set status `'completed'`. -/
def submit_response (rid : Nat) (resp : WebLLMResponse) (s : BridgeState) :
    Bool × BridgeState :=
  match alookup rid s.requests with
  | none => (false, s)
  | some req =>
    if req.stream then
      match alookup rid s.response_queues with
      | some q =>
        if resp.done || errTruthy resp.error then
          (true,
           { requests := aupd rid { req with status := "completed" } s.requests
             response_queues := aupd rid (q ++ [resp]) s.response_queues
             completion_events := setEvent rid s.completion_events })
        else
          (true, { s with response_queues := aupd rid (q ++ [resp]) s.response_queues })
      | none => (false, s)
    else
      (true,
       { requests := aupd rid { req with status := "completed" } s.requests
         response_queues := aupd rid [resp] s.response_queues
         completion_events := setEvent rid s.completion_events })

/-- `wait_for_completion` (lines 201-210), real time abstracted.  If the id
has no completion event at call time the function returns `false` at once.
Otherwise it blocks on `Event.wait`, which yields `true` exactly when the
event is already set or becomes set during the wait window (`setDuringWait`);
a plain timeout yields `false` (`setDuringWait = false`, event unset). -/
def wait_for_completion (rid : Nat) (s : BridgeState) (setDuringWait : Bool) :
    Bool :=
  match alookup rid s.completion_events with
  | none => false
  | some b => b || setDuringWait

/-- `get_response` (lines 212-221): pop the head of the id's response queue,
`none` when the queue is missing or empty. -/
def get_response (rid : Nat) (s : BridgeState) :
    Option WebLLMResponse × BridgeState :=
  match alookup rid s.response_queues with
  | none => (none, s)
  | some [] => (none, s)
  | some (r :: rest) =>
    (some r, { s with response_queues := aupd rid rest s.response_queues })

/-- `get_final_response` (lines 223-235): pop the head of the queue and then
remove the whole registry entry (`_remove_request` subsumes the pop); `none`
when the queue is missing or empty, with no state change. -/
def get_final_response (rid : Nat) (s : BridgeState) :
    Option WebLLMResponse × BridgeState :=
  match alookup rid s.response_queues with
  | none => (none, s)
  | some [] => (none, s)
  | some (r :: _) => (some r, (removeRequest rid s).1)

/-- `cancel_request` (lines 237-242): remove the entry when the id is live. -/
def cancel_request (rid : Nat) (s : BridgeState) : BridgeState :=
  if (alookup rid s.requests).isSome then (removeRequest rid s).1 else s

/-- Ids whose age `now - created_at` strictly exceeds the TTL
(`(now - req.created_at).total_seconds() > REQUEST_TTL`, lines 101-104). -/
def expiredIds (now : Nat) (s : BridgeState) : List Nat :=
  (s.requests.filter (fun p => decide (REQUEST_TTL < now - p.2.created_at))).map
    Prod.fst

/-- The removal loop of `_cleanup_expired_requests` (lines 106-108):
`_remove_request` each listed id in turn, logging for each whether its
completion event was signalled on removal. -/
def cleanupFold (acc : BridgeState × List (Nat × Bool)) :
    List Nat → BridgeState × List (Nat × Bool)
  | [] => acc
  | rid :: rest =>
    let r := removeRequest rid acc.1
    cleanupFold (r.1, acc.2 ++ [(rid, r.2)]) rest

/-- `_cleanup_expired_requests` (lines 96-115): compute the expired ids,
then `_remove_request` each (signalling its waiters).  The second component
logs, per removed id, whether a waiter was signalled. -/
def cleanup_expired_requests (now : Nat) (s : BridgeState) :
    BridgeState × List (Nat × Bool) :=
  cleanupFold (s, []) (expiredIds now s)

/-- `get_status` (lines 244-257): `total_requests` is the size of the
request registry. -/
def get_status_total (s : BridgeState) : Nat := s.requests.length

/-- `get_status` per-status counts: how many live requests carry a status. -/
def get_status_count (st : String) (s : BridgeState) : Nat :=
  (s.requests.filter (fun p => p.2.status == st)).length

/-! ## Streaming adapter (`stream_webllm_response`, lines 452-528) -/

/-- One Server-Sent-Events frame yielded by `stream_webllm_response`. -/
inductive Frame where
  | delta (content : String)
  | errorFrame (msg : String)
  | usageFrame (usage : List (String × Nat))
  deriving DecidableEq, Repr

/-- Handling of one retrieved response in the polling loop (lines 478-500):
frames yielded and whether the loop breaks.  A truthy `error` yields an
error frame and breaks.  Otherwise, a truthy (non-empty) `content` yields a
delta frame and, when `done` also holds, a usage frame if `usage` is truthy,
then breaks exactly when `done`.  A response with falsy content and falsy
error yields nothing and does not break (the `done` check is nested inside
`elif response.content:`). -/
def streamStep (r : WebLLMResponse) : List Frame × Bool :=
  if errTruthy r.error then ([Frame.errorFrame (r.error.getD "")], true)
  else if r.content.isEmpty then ([], false)
  else
    (Frame.delta r.content ::
      (if r.done && !r.usage.isEmpty then [Frame.usageFrame r.usage] else []),
     r.done)

/-- The adapter consuming a queue of already-submitted responses in order:
frames emitted and whether some response broke the loop.  (If the queue runs
out without a break, the real loop keeps polling and eventually emits an
inactivity-timeout error frame; `false` here means that situation.) -/
def drainList : List WebLLMResponse → List Frame × Bool
  | [] => ([], false)
  | r :: rs =>
    let step := streamStep r
    if step.2 then (step.1, true)
    else
      let rest := drainList rs
      (step.1 ++ rest.1, rest.2)

/-! ## `webllm_chat` content guard (lines 327-344, 350-362, 372-383) -/

/-- Python `a or b` on an optional string and a string default: `a` when it
is present and non-empty (truthy), else `b`. -/
def orTruthy (a : Option String) (b : String) : String :=
  match a with
  | some v => if v.isEmpty then b else v
  | none => b

/-- Python `str.strip()` on the character list: drop leading and trailing
whitespace. -/
def stripChars (cs : List Char) : List Char :=
  ((cs.dropWhile Char.isWhitespace).reverse.dropWhile Char.isWhitespace).reverse

/-- Python `str.strip()`. -/
def pyStrip (s : String) : String := ⟨stripChars s.data⟩

/-- `(request.data.get('content') or request.data.get('user_message') or
'').strip()` (line 328). -/
def chatContent (content user_message : Option String) : String :=
  pyStrip (orTruthy content (orTruthy user_message ""))

/-- The `webllm_chat` entry path as far as request creation: extract the
content (line 328), reject with a 400 `Content is required` response when it
is empty (lines 341-344) without touching the bridge, otherwise hand the
data to `create_request` (lines 352-362 / 373-383).  `none` models the
rejection. -/
def webllm_chat_create (rid now : Nat) (content user_message : Option String)
    (data : RequestData) (s : BridgeState) :
    Option WebLLMRequest × BridgeState :=
  let c := chatContent content user_message
  if c.isEmpty then (none, s)
  else
    let res := create_request rid now { data with content := some c } s
    (some res.1, res.2)

/-! ## Operation alphabet and reachable states -/

/-- One public bridge-manager operation (plus the cleanup sweep). -/
inductive BridgeOp where
  | create (rid now : Nat) (data : RequestData)
  | markProc (rid : Nat)
  | submit (rid : Nat) (resp : WebLLMResponse)
  | getResp (rid : Nat)
  | getFinal (rid : Nat)
  | cancel (rid : Nat)
  | sweep (now : Nat)
  deriving Repr

/-- State transformer of one operation (return values discarded). -/
def applyOp (s : BridgeState) : BridgeOp → BridgeState
  | .create rid now d => (create_request rid now d s).2
  | .markProc rid => (mark_processing rid s).2
  | .submit rid r => (submit_response rid r s).2
  | .getResp rid => (get_response rid s).2
  | .getFinal rid => (get_final_response rid s).2
  | .cancel rid => cancel_request rid s
  | .sweep now => (cleanup_expired_requests now s).1

/-- Run a sequence of operations from a state. -/
def applyOps (ops : List BridgeOp) (s : BridgeState) : BridgeState :=
  ops.foldl applyOp s

/-- Structural invariant of the three dicts: requests and completion events
hold exactly the same ids, and every id owning a response queue is a live
request. -/
def Inv (s : BridgeState) : Prop :=
  (∀ rid, (alookup rid s.requests).isSome ↔
    (alookup rid s.completion_events).isSome) ∧
  (∀ rid, (alookup rid s.response_queues).isSome →
    (alookup rid s.requests).isSome)

/-! ## Concrete scenario states used as witnesses and counterexamples -/

/-- Non-streaming chat request data. -/
def dataNS : RequestData := { emptyData with content := some "hi", stream := some false }

/-- Streaming chat request data. -/
def dataStream : RequestData := { emptyData with content := some "hi", stream := some true }

/-- First partial streaming response. -/
def respA : WebLLMResponse := ⟨0, "Hel", none, [], false⟩

/-- Second partial streaming response. -/
def respB : WebLLMResponse := ⟨0, "lo", none, [], false⟩

/-- Third partial streaming response. -/
def respC : WebLLMResponse := ⟨0, "!", none, [], false⟩

/-- Final streaming response with empty content, no error, usage present. -/
def respFinalEmpty : WebLLMResponse := ⟨0, "", none, [("total_tokens", 42)], true⟩

/-- A complete non-streaming answer. -/
def respDone : WebLLMResponse := ⟨0, "answer", none, [("total_tokens", 7)], true⟩

/-- One live non-streaming request with id 0, created at time 5. -/
def sOne : BridgeState := (create_request 0 5 dataNS initState).2

/-- `sOne`'s request record. -/
def reqNS : WebLLMRequest :=
  { request_id := 0
    request_type := "chat"
    content := "hi"
    system_prompt := "You are a helpful AI assistant."
    model := "Llama-3.2-1B-Instruct"
    max_tokens := 4096
    stream := false
    timeout := 180
    session_id := none
    created_at := 5
    status := "pending" }

/-- `sOne` after its single response arrived (request completed). -/
def sDone : BridgeState := (submit_response 0 respDone sOne).2

/-- One live streaming request with id 0, created at time 5. -/
def sStream : BridgeState := (create_request 0 5 dataStream initState).2

/-- `sStream` after three partials and an empty-content final response. -/
def sStream4 : BridgeState :=
  (submit_response 0 respFinalEmpty
    ((submit_response 0 respC
      ((submit_response 0 respB
        ((submit_response 0 respA sStream).2)).2)).2)).2

/-- `sStream`'s request record. -/
def reqStream : WebLLMRequest := { reqNS with stream := true }

/-- One consumer/producer event on a streaming request: a `submit_response`
by the frontend or a `get_response` poll by the streaming adapter. -/
inductive StreamEvt where
  | sub (resp : WebLLMResponse)
  | get
  deriving Repr

/-- Run a trace of submissions and polls against the bridge, collecting in
order the responses the consumer received. -/
def runTrace (rid : Nat) : List StreamEvt → BridgeState →
    BridgeState × List WebLLMResponse
  | [], s => (s, [])
  | .sub r :: tr, s => runTrace rid tr (submit_response rid r s).2
  | .get :: tr, s =>
    let res := get_response rid s
    let rest := runTrace rid tr res.2
    (rest.1, res.1.toList ++ rest.2)

/-- The responses submitted in a trace, in submission order. -/
def subsOf : List StreamEvt → List WebLLMResponse
  | [] => []
  | .sub r :: tr => r :: subsOf tr
  | .get :: tr => subsOf tr

/-- An interleaved trace: submit, poll, submit, poll, poll. -/
def trW : List StreamEvt :=
  [StreamEvt.sub respA, StreamEvt.get, StreamEvt.sub respB, StreamEvt.get,
   StreamEvt.get]

/-- A registry at capacity: ten live requests with ids and creation times
0..9. -/
def sFull : BridgeState :=
  (List.range 10).foldl (fun st i => (create_request i i dataNS st).2) initState

/-- The oldest request of `sFull` (id 0, created at time 0). -/
def reqFull0 : WebLLMRequest := { reqNS with request_id := 0, created_at := 0 }

/-! ## Lemmas -/

theorem alookup_aupd (k k' : Nat) (v : α) (l : List (Nat × α)) :
    alookup k' (aupd k v l) = if k' = k then some v else alookup k' l := by
  induction l with
  | nil =>
    by_cases h : k' = k
    · subst h; simp [aupd, alookup]
    · have h2 : ¬ k = k' := fun e => h e.symm
      simp [aupd, alookup, h, h2]
  | cons p ps ih =>
    by_cases hp : p.1 = k
    · by_cases h : k' = k
      · subst h; simp [aupd, alookup, hp]
      · have h2 : ¬ k = k' := fun e => h e.symm
        have h3 : ¬ p.1 = k' := fun e => h2 (hp ▸ e)
        simp [aupd, alookup, hp, h, h2, h3]
    · by_cases h : p.1 = k'
      · have h2 : ¬ k' = k := fun e => hp (h.trans e)
        simp [aupd, alookup, hp, h, h2]
      · simp [aupd, alookup, hp, h, ih]

theorem alookup_aremove (k k' : Nat) (l : List (Nat × α)) :
    alookup k' (aremove k l) = if k' = k then none else alookup k' l := by
  induction l with
  | nil => simp [aremove, alookup]
  | cons p ps ih =>
    by_cases hp : p.1 = k
    · by_cases h : k' = k
      · subst h
        simp [aremove, alookup, hp]
        simpa using ih
      · have h3 : ¬ p.1 = k' := fun e => h ((e.symm.trans hp))
        have h4 : ¬ k = k' := fun e => h e.symm
        simp [aremove, alookup, hp, h, h3, h4, ih]
    · by_cases h : p.1 = k'
      · have h2 : ¬ k' = k := fun e => hp (h.trans e)
        simp [aremove, alookup, hp, h, h2]
      · simp [aremove, alookup, hp, h, ih]

theorem length_aremove_le (k : Nat) (l : List (Nat × α)) :
    (aremove k l).length ≤ l.length := by
  induction l with
  | nil => simp [aremove]
  | cons p ps ih =>
    by_cases hp : p.1 = k
    · simp [aremove, hp]; exact Nat.le_succ_of_le ih
    · simp [aremove, hp]; exact ih

theorem length_aremove_lt (k : Nat) (l : List (Nat × α))
    (h : (alookup k l).isSome) : (aremove k l).length < l.length := by
  induction l with
  | nil => simp [alookup] at h
  | cons p ps ih =>
    by_cases hp : p.1 = k
    · simp [aremove, hp]
      exact Nat.lt_succ_of_le (length_aremove_le k ps)
    · simp [alookup, hp] at h
      simp [aremove, hp]
      exact ih h

theorem length_aupd (k : Nat) (v : α) (l : List (Nat × α)) :
    (aupd k v l).length =
      if (alookup k l).isSome then l.length else l.length + 1 := by
  induction l with
  | nil => simp [aupd, alookup]
  | cons p ps ih =>
    by_cases hp : p.1 = k
    · simp [aupd, alookup, hp]
    · simp [aupd, alookup, hp, ih]
      by_cases h : (alookup k ps).isSome <;> simp [h]

/-! ## Supporting lemmas -/

theorem alookup_setEvent (k k' : Nat) (l : List (Nat × Bool)) :
    alookup k' (setEvent k l) =
      if k' = k then (alookup k l).map (fun _ => true) else alookup k' l := by
  induction l with
  | nil =>
    by_cases h : k' = k <;> simp [setEvent, alookup, h]
  | cons p ps ih =>
    by_cases hp : p.1 = k
    · by_cases h : k' = k
      · subst h; simp [setEvent, alookup, hp]
      · have h2 : ¬ k = k' := fun e => h e.symm
        have h3 : ¬ p.1 = k' := fun e => h (e.symm.trans hp)
        simp [setEvent, alookup, hp, h, h2, h3] at ih ⊢
        exact ih
    · by_cases h : p.1 = k'
      · have h2 : ¬ k' = k := fun e => hp (h.trans e)
        simp [setEvent, alookup, hp, h, h2]
      · simp [setEvent, alookup, hp, h] at ih ⊢
        exact ih

theorem mem_of_alookup_eq_some {l : List (Nat × α)} {k : Nat} {v : α}
    (h : alookup k l = some v) : (k, v) ∈ l := by
  induction l with
  | nil => simp [alookup] at h
  | cons p ps ih =>
    obtain ⟨a, b⟩ := p
    by_cases hp : a = k
    · simp [alookup, hp] at h
      subst hp
      subst h
      exact List.mem_cons_self _ _
    · simp [alookup, hp] at h
      exact List.mem_cons_of_mem _ (ih h)

theorem alookup_isSome_of_mem {l : List (Nat × α)} {k : Nat} {v : α}
    (h : (k, v) ∈ l) : (alookup k l).isSome := by
  induction l with
  | nil => simp at h
  | cons p ps ih =>
    rcases List.mem_cons.mp h with h1 | h1
    · simp [alookup, ← h1]
    · by_cases hp : p.1 = k
      · simp [alookup, hp]
      · simp [alookup, hp]
        exact ih h1

theorem key_mem_of_mem {l : List (Nat × α)} {k : Nat} {v : α}
    (h : (k, v) ∈ l) : k ∈ l.map Prod.fst :=
  List.mem_map.mpr ⟨(k, v), h, rfl⟩

theorem alookup_eq_none_iff (k : Nat) (l : List (Nat × α)) :
    alookup k l = none ↔ k ∉ l.map Prod.fst := by
  induction l with
  | nil => simp [alookup]
  | cons p ps ih =>
    by_cases hp : p.1 = k
    · simp [alookup, hp]
    · have hp2 : ¬ k = p.1 := fun e => hp e.symm
      simp [alookup, hp, hp2, ih]

theorem alookup_eq_some_of_mem_nodup {l : List (Nat × α)} {k : Nat} {v : α}
    (hnd : NoDupKeys l) (h : (k, v) ∈ l) : alookup k l = some v := by
  induction l with
  | nil => simp at h
  | cons p ps ih =>
    unfold NoDupKeys at hnd
    rw [List.map_cons, List.nodup_cons] at hnd
    rcases List.mem_cons.mp h with h1 | h1
    · simp [alookup, ← h1]
    · have hk : ¬ p.1 = k := by
        intro e
        exact hnd.1 (e ▸ key_mem_of_mem h1)
      simp [alookup, hk]
      exact ih hnd.2 h1

theorem aremove_eq_of_not_mem {l : List (Nat × α)} {k : Nat}
    (h : k ∉ l.map Prod.fst) : aremove k l = l := by
  induction l with
  | nil => simp [aremove]
  | cons p ps ih =>
    rw [List.map_cons] at h
    have hp : ¬ p.1 = k := fun e => h (e ▸ List.mem_cons_self _ _)
    have hps : k ∉ ps.map Prod.fst := fun hm => h (List.mem_cons_of_mem _ hm)
    simp [aremove, hp]
    exact ih hps

theorem length_aremove_nodup {l : List (Nat × α)} {k : Nat}
    (hnd : NoDupKeys l) (h : (alookup k l).isSome) :
    (aremove k l).length + 1 = l.length := by
  induction l with
  | nil => simp [alookup] at h
  | cons p ps ih =>
    unfold NoDupKeys at hnd
    rw [List.map_cons, List.nodup_cons] at hnd
    by_cases hp : p.1 = k
    · have hrem : aremove k ps = ps := aremove_eq_of_not_mem (hp ▸ hnd.1)
      simp [aremove, hp, hrem]
    · simp [alookup, hp] at h
      simp [aremove, hp]
      exact ih hnd.2 h

theorem keys_aupd (k : Nat) (v : α) (l : List (Nat × α)) :
    (aupd k v l).map Prod.fst =
      if (alookup k l).isSome then l.map Prod.fst
      else l.map Prod.fst ++ [k] := by
  induction l with
  | nil => simp [aupd, alookup]
  | cons p ps ih =>
    by_cases hp : p.1 = k
    · simp [aupd, alookup, hp]
    · simp [aupd, alookup, hp, ih]
      by_cases h : (alookup k ps).isSome <;> simp [h]

theorem keys_aremove (k : Nat) (l : List (Nat × α)) :
    (aremove k l).map Prod.fst = (l.map Prod.fst).filter (fun x => x != k) := by
  induction l with
  | nil => simp [aremove]
  | cons p ps ih =>
    by_cases hp : p.1 = k
    · simp [aremove, hp, ih]
    · simp [aremove, hp, ih]

theorem keys_setEvent (k : Nat) (l : List (Nat × Bool)) :
    (setEvent k l).map Prod.fst = l.map Prod.fst := by
  induction l with
  | nil => simp [setEvent]
  | cons p ps ih =>
    by_cases hp : p.1 = k <;> simp [setEvent, hp] at ih ⊢ <;> exact ih

/-- A `NoDupKeys` list stays `NoDupKeys` after `aupd`. -/
theorem noDupKeys_aupd {l : List (Nat × α)} (k : Nat) (v : α)
    (hnd : NoDupKeys l) : NoDupKeys (aupd k v l) := by
  unfold NoDupKeys at *
  rw [keys_aupd]
  by_cases h : (alookup k l).isSome
  · simpa [h] using hnd
  · rw [if_neg h]
    rw [List.nodup_append]
    refine ⟨hnd, List.nodup_singleton k, ?_⟩
    intro x hx hx2
    rw [List.mem_singleton] at hx2
    subst hx2
    rw [Option.not_isSome_iff_eq_none, alookup_eq_none_iff] at h
    exact h hx

/-- A `NoDupKeys` list stays `NoDupKeys` after `aremove`. -/
theorem noDupKeys_aremove {l : List (Nat × α)} (k : Nat)
    (hnd : NoDupKeys l) : NoDupKeys (aremove k l) := by
  unfold NoDupKeys at *
  rw [keys_aremove]
  exact hnd.filter _

theorem isSome_aupd (k k' : Nat) (v : α) (l : List (Nat × α)) :
    (alookup k' (aupd k v l)).isSome =
      if k' = k then true else (alookup k' l).isSome := by
  rw [alookup_aupd]
  by_cases h : k' = k <;> simp [h]

theorem isSome_aremove (k k' : Nat) (l : List (Nat × α)) :
    (alookup k' (aremove k l)).isSome =
      if k' = k then false else (alookup k' l).isSome := by
  rw [alookup_aremove]
  by_cases h : k' = k <;> simp [h]

theorem isSome_setEvent (k k' : Nat) (l : List (Nat × Bool)) :
    (alookup k' (setEvent k l)).isSome = (alookup k' l).isSome := by
  rw [alookup_setEvent]
  by_cases h : k' = k <;> simp [h]

/-! ### Minimum by creation time -/

theorem foldl_minStep_mem (l : List (Nat × WebLLMRequest)) :
    ∀ b, l.foldl minStep b = b ∨ l.foldl minStep b ∈ l := by
  induction l with
  | nil => intro b; left; rfl
  | cons q l ih =>
    intro b
    rw [List.foldl_cons]
    rcases ih (minStep b q) with h | h
    · rw [h]
      unfold minStep
      by_cases hc : q.2.created_at < b.2.created_at
      · right; simp [hc]
      · left; simp [hc]
    · right; exact List.mem_cons_of_mem _ h

theorem foldl_minStep_le (l : List (Nat × WebLLMRequest)) :
    ∀ b, (l.foldl minStep b).2.created_at ≤ b.2.created_at ∧
      ∀ p ∈ l, (l.foldl minStep b).2.created_at ≤ p.2.created_at := by
  induction l with
  | nil =>
    intro b
    exact ⟨Nat.le_refl _, by simp⟩
  | cons q l ih =>
    intro b
    rw [List.foldl_cons]
    have h := ih (minStep b q)
    have hbq : (minStep b q).2.created_at ≤ b.2.created_at ∧
        (minStep b q).2.created_at ≤ q.2.created_at := by
      unfold minStep
      by_cases hc : q.2.created_at < b.2.created_at
      · simp [hc]; exact Nat.le_of_lt hc
      · simp [hc]; exact Nat.le_of_not_lt hc
    refine ⟨h.1.trans hbq.1, ?_⟩
    intro p hp
    rcases List.mem_cons.mp hp with h1 | h1
    · subst h1; exact h.1.trans hbq.2
    · exact h.2 p h1

theorem minByCreated_spec (l : List (Nat × WebLLMRequest)) (hne : l ≠ []) :
    ∃ p, minByCreated l = some p ∧ p ∈ l ∧
      ∀ q ∈ l, p.2.created_at ≤ q.2.created_at := by
  match l with
  | [] => exact absurd rfl hne
  | p :: ps =>
    refine ⟨ps.foldl minStep p, rfl, ?_, ?_⟩
    · rcases foldl_minStep_mem ps p with h | h
      · rw [h]; exact List.mem_cons_self _ _
      · exact List.mem_cons_of_mem _ h
    · intro q hq
      have h := foldl_minStep_le ps p
      rcases List.mem_cons.mp hq with h1 | h1
      · subst h1; exact h.1
      · exact h.2 q h1

/-- When one live request is strictly older than every other, Python `min`
picks exactly it. -/
theorem oldestId_of_unique_min (l : List (Nat × WebLLMRequest))
    (id0 : Nat) (r0 : WebLLMRequest) (hmem : (id0, r0) ∈ l)
    (hmin : ∀ p ∈ l, ¬ p.1 = id0 → r0.created_at < p.2.created_at) :
    oldestId l = some id0 := by
  have hne : l ≠ [] := by
    intro h
    rw [h] at hmem
    simp at hmem
  rcases minByCreated_spec l hne with ⟨p, hp, hpm, hple⟩
  unfold oldestId
  rw [hp]
  by_cases h : p.1 = id0
  · simp [h]
  · have h1 := hmin p hpm h
    have h2 := hple (id0, r0) hmem
    exact absurd (Nat.lt_of_lt_of_le h1 h2) (Nat.lt_irrefl _)

/-! ### Cleanup fold -/

theorem cleanupFold_lookup (L : List Nat) :
    ∀ (s : BridgeState) (log : List (Nat × Bool)) (id : Nat),
      (alookup id (cleanupFold (s, log) L).1.requests =
        if id ∈ L then none else alookup id s.requests) ∧
      (alookup id (cleanupFold (s, log) L).1.response_queues =
        if id ∈ L then none else alookup id s.response_queues) ∧
      (alookup id (cleanupFold (s, log) L).1.completion_events =
        if id ∈ L then none else alookup id s.completion_events) := by
  induction L with
  | nil =>
    intro s log id
    simp [cleanupFold]
  | cons rid rest ih =>
    intro s log id
    simp only [cleanupFold]
    obtain ⟨h1, h2, h3⟩ :=
      ih (removeRequest rid s).1 (log ++ [(rid, (removeRequest rid s).2)]) id
    simp only [removeRequest] at h1 h2 h3 ⊢
    by_cases hid : id = rid
    · subst hid
      refine ⟨?_, ?_, ?_⟩
      · rw [h1]
        by_cases hm : id ∈ rest <;> simp [hm, alookup_aremove, List.mem_cons]
      · rw [h2]
        by_cases hm : id ∈ rest <;> simp [hm, alookup_aremove, List.mem_cons]
      · rw [h3]
        by_cases hm : id ∈ rest <;> simp [hm, alookup_aremove, List.mem_cons]
    · refine ⟨?_, ?_, ?_⟩
      · rw [h1]
        by_cases hm : id ∈ rest <;>
          simp [hm, alookup_aremove, hid, List.mem_cons]
      · rw [h2]
        by_cases hm : id ∈ rest <;>
          simp [hm, alookup_aremove, hid, List.mem_cons]
      · rw [h3]
        by_cases hm : id ∈ rest <;>
          simp [hm, alookup_aremove, hid, List.mem_cons]

theorem cleanupFold_log_mono (L : List Nat) :
    ∀ (s : BridgeState) (log : List (Nat × Bool)) (x : Nat × Bool),
      x ∈ log → x ∈ (cleanupFold (s, log) L).2 := by
  induction L with
  | nil =>
    intro s log x hx
    simpa [cleanupFold] using hx
  | cons rid rest ih =>
    intro s log x hx
    simp only [cleanupFold]
    exact ih _ _ x (List.mem_append_left _ hx)

/-- Every id in the removal list whose completion event exists gets its
event signalled when removed: `(id, true)` appears in the cleanup log. -/
theorem cleanupFold_signals (L : List Nat) :
    ∀ (s : BridgeState) (log : List (Nat × Bool)) (id : Nat),
      id ∈ L → (alookup id s.completion_events).isSome →
      (id, true) ∈ (cleanupFold (s, log) L).2 := by
  induction L with
  | nil =>
    intro s log id hmem _
    simp at hmem
  | cons rid rest ih =>
    intro s log id hmem hev
    simp only [cleanupFold]
    by_cases hid : id = rid
    · subst hid
      apply cleanupFold_log_mono
      apply List.mem_append_right
      simp [removeRequest, hev]
    · rcases List.mem_cons.mp hmem with h1 | h1
      · exact absurd h1 hid
      · apply ih
        · exact h1
        · simp [removeRequest, alookup_aremove, hid]
          exact hev

/-- Membership in `expiredIds` characterised via `alookup` (registry keys
assumed unique, which `uuid4` provides). -/
theorem mem_expiredIds_iff (now : Nat) (s : BridgeState) (rid : Nat)
    (hnd : NoDupKeys s.requests) :
    rid ∈ expiredIds now s ↔
      ∃ req, alookup rid s.requests = some req ∧
        REQUEST_TTL < now - req.created_at := by
  unfold expiredIds
  constructor
  · intro h
    rcases List.mem_map.mp h with ⟨p, hp, hfst⟩
    rcases List.mem_filter.mp hp with ⟨hmem, hcond⟩
    obtain ⟨a, b⟩ := p
    subst hfst
    exact ⟨b, alookup_eq_some_of_mem_nodup hnd hmem, by simpa using hcond⟩
  · rintro ⟨req, hreq, hcond⟩
    apply List.mem_map.mpr
    refine ⟨(rid, req), List.mem_filter.mpr ⟨mem_of_alookup_eq_some hreq, ?_⟩, rfl⟩
    simpa using hcond

/-! ### Preservation of the structural invariant -/

theorem inv_init : Inv initState := by
  constructor
  · intro id; simp [initState, alookup]
  · intro id h; simp [initState, alookup] at h

theorem inv_removeRequest (rid : Nat) {s : BridgeState} (h : Inv s) :
    Inv (removeRequest rid s).1 := by
  obtain ⟨h1, h2⟩ := h
  constructor
  · intro id
    simp only [removeRequest]
    rw [isSome_aremove, isSome_aremove]
    by_cases hid : id = rid <;> simp [hid, h1 id]
  · intro id
    simp only [removeRequest]
    rw [isSome_aremove, isSome_aremove]
    by_cases hid : id = rid <;> simp [hid]
    exact h2 id

theorem inv_evictIfFull {s : BridgeState} (h : Inv s) : Inv (evictIfFull s) := by
  unfold evictIfFull
  split
  · split
    · exact inv_removeRequest _ h
    · exact h
  · exact h

theorem inv_insertFresh (rid : Nat) (req : WebLLMRequest) {s : BridgeState}
    (h : Inv s) :
    Inv { requests := aupd rid req s.requests
          response_queues :=
            if req.stream then aupd rid [] s.response_queues
            else s.response_queues
          completion_events := aupd rid false s.completion_events } := by
  obtain ⟨h1, h2⟩ := h
  constructor
  · intro id
    simp only
    rw [isSome_aupd, isSome_aupd]
    by_cases hid : id = rid <;> simp [hid, h1 id]
  · intro id
    simp only
    by_cases hs : req.stream
    · simp only [hs, if_pos]
      rw [isSome_aupd, isSome_aupd]
      by_cases hid : id = rid <;> simp [hid]
      exact h2 id
    · simp only [hs]
      rw [isSome_aupd]
      by_cases hid : id = rid <;> simp [hid]
      exact h2 id

theorem inv_create (rid now : Nat) (d : RequestData) {s : BridgeState}
    (h : Inv s) : Inv (create_request rid now d s).2 :=
  inv_insertFresh rid _ (inv_evictIfFull h)

theorem inv_updRequest (rid : Nat) (req' : WebLLMRequest) {s : BridgeState}
    (h : Inv s) (hlive : (alookup rid s.requests).isSome) :
    Inv { s with requests := aupd rid req' s.requests } := by
  obtain ⟨h1, h2⟩ := h
  constructor
  · intro id
    simp only
    rw [isSome_aupd]
    by_cases hid : id = rid
    · subst hid
      simp
      exact (h1 _).mp hlive
    · simp [hid, h1 id]
  · intro id
    simp only
    intro hq
    rw [isSome_aupd]
    by_cases hid : id = rid <;> simp [hid]
    exact h2 id hq

theorem inv_updQueue (rid : Nat) (q' : List WebLLMResponse) {s : BridgeState}
    (h : Inv s) (hlive : (alookup rid s.requests).isSome) :
    Inv { s with response_queues := aupd rid q' s.response_queues } := by
  obtain ⟨h1, h2⟩ := h
  constructor
  · intro id
    simpa using h1 id
  · intro id
    simp only
    intro hq
    rw [isSome_aupd] at hq
    by_cases hid : id = rid
    · subst hid; simpa using hlive
    · simp [hid] at hq
      exact h2 id hq

theorem inv_updExisting (rid : Nat) (req' : WebLLMRequest)
    (q' : List WebLLMResponse) {s : BridgeState} (h : Inv s)
    (hlive : (alookup rid s.requests).isSome) :
    Inv { requests := aupd rid req' s.requests
          response_queues := aupd rid q' s.response_queues
          completion_events := setEvent rid s.completion_events } := by
  obtain ⟨h1, h2⟩ := h
  constructor
  · intro id
    simp only
    rw [isSome_aupd, isSome_setEvent]
    by_cases hid : id = rid
    · subst hid
      simp
      exact (h1 _).mp hlive
    · simp [hid, h1 id]
  · intro id
    simp only
    intro hq
    rw [isSome_aupd] at hq
    rw [isSome_aupd]
    by_cases hid : id = rid <;> simp [hid] at hq ⊢
    exact h2 id hq

theorem inv_markProcessing (rid : Nat) {s : BridgeState} (h : Inv s) :
    Inv (mark_processing rid s).2 := by
  unfold mark_processing
  cases hr : alookup rid s.requests with
  | none => exact h
  | some req =>
    exact inv_updRequest rid _ h (by simp [hr])

theorem inv_submit (rid : Nat) (resp : WebLLMResponse) {s : BridgeState}
    (h : Inv s) : Inv (submit_response rid resp s).2 := by
  unfold submit_response
  cases hr : alookup rid s.requests with
  | none => exact h
  | some req =>
    have hlive : (alookup rid s.requests).isSome := by simp [hr]
    by_cases hs : req.stream
    · simp only [hs, if_pos]
      cases hq : alookup rid s.response_queues with
      | none => exact h
      | some q =>
        by_cases hd : (resp.done || errTruthy resp.error) = true
        · simp only [hd, if_pos]
          exact inv_updExisting rid _ _ h hlive
        · simp only [hd]
          simp
          exact inv_updQueue rid _ h hlive
    · simp only [hs]
      simp
      exact inv_updExisting rid _ _ h hlive

theorem inv_getResponse (rid : Nat) {s : BridgeState} (h : Inv s) :
    Inv (get_response rid s).2 := by
  unfold get_response
  cases hq : alookup rid s.response_queues with
  | none => exact h
  | some q =>
    cases q with
    | nil => exact h
    | cons r rest =>
      exact inv_updQueue rid _ h (h.2 rid (by simp [hq]))

theorem inv_getFinal (rid : Nat) {s : BridgeState} (h : Inv s) :
    Inv (get_final_response rid s).2 := by
  unfold get_final_response
  cases hq : alookup rid s.response_queues with
  | none => exact h
  | some q =>
    cases q with
    | nil => exact h
    | cons r rest => exact inv_removeRequest rid h

theorem inv_cancel (rid : Nat) {s : BridgeState} (h : Inv s) :
    Inv (cancel_request rid s) := by
  unfold cancel_request
  split
  · exact inv_removeRequest rid h
  · exact h

theorem inv_cleanupFold (L : List Nat) :
    ∀ (s : BridgeState) (log : List (Nat × Bool)),
      Inv s → Inv (cleanupFold (s, log) L).1 := by
  induction L with
  | nil =>
    intro s log h
    simpa [cleanupFold] using h
  | cons rid rest ih =>
    intro s log h
    simp only [cleanupFold]
    exact ih _ _ (inv_removeRequest rid h)

theorem inv_applyOp (op : BridgeOp) {s : BridgeState} (h : Inv s) :
    Inv (applyOp s op) := by
  cases op with
  | create rid now d => exact inv_create rid now d h
  | markProc rid => exact inv_markProcessing rid h
  | submit rid r => exact inv_submit rid r h
  | getResp rid => exact inv_getResponse rid h
  | getFinal rid => exact inv_getFinal rid h
  | cancel rid => exact inv_cancel rid h
  | sweep now => exact inv_cleanupFold _ _ _ h

theorem inv_applyOps (ops : List BridgeOp) :
    ∀ {s : BridgeState}, Inv s → Inv (applyOps ops s) := by
  induction ops with
  | nil =>
    intro s h
    simpa [applyOps] using h
  | cons op rest ih =>
    intro s h
    simp only [applyOps, List.foldl_cons]
    exact ih (inv_applyOp op h)

/-! ### Eviction and queue lemmas -/

theorem minByCreated_mem (l : List (Nat × WebLLMRequest))
    (p : Nat × WebLLMRequest) (h : minByCreated l = some p) : p ∈ l := by
  match l with
  | [] => simp [minByCreated] at h
  | x :: xs =>
    simp [minByCreated] at h
    subst h
    rcases foldl_minStep_mem xs x with h1 | h1
    · rw [h1]; exact List.mem_cons_self _ _
    · exact List.mem_cons_of_mem _ h1

theorem oldestId_key_isSome (l : List (Nat × WebLLMRequest)) (oid : Nat)
    (h : oldestId l = some oid) : (alookup oid l).isSome := by
  unfold oldestId at h
  cases hm : minByCreated l with
  | none => rw [hm] at h; simp at h
  | some p =>
    rw [hm] at h
    simp at h
    subst h
    exact alookup_isSome_of_mem (v := p.2) (minByCreated_mem l p hm)

theorem oldestId_isSome_of_ne_nil (l : List (Nat × WebLLMRequest))
    (h : l ≠ []) : ∃ oid, oldestId l = some oid := by
  match l with
  | [] => exact absurd rfl h
  | x :: xs => exact ⟨(xs.foldl minStep x).1, rfl⟩

theorem length_aupd_le (k : Nat) (v : α) (l : List (Nat × α)) :
    (aupd k v l).length ≤ l.length + 1 := by
  rw [length_aupd]
  split <;> omega

/-- `submit_response` on a live streaming request with a queue keeps the
request live and streaming and appends the response to the queue. -/
theorem submit_stream_state (s : BridgeState) (rid : Nat)
    (resp : WebLLMResponse) (req : WebLLMRequest) (q : List WebLLMResponse)
    (hreq : alookup rid s.requests = some req) (hs : req.stream = true)
    (hq : alookup rid s.response_queues = some q) :
    ∃ req', alookup rid (submit_response rid resp s).2.requests = some req' ∧
      req'.stream = true ∧
      alookup rid (submit_response rid resp s).2.response_queues
        = some (q ++ [resp]) := by
  unfold submit_response
  rw [hreq, hq]
  simp only [hs, if_true]
  by_cases hd : (resp.done || errTruthy resp.error) = true
  · simp only [hd, if_true]
    refine ⟨{ req with status := "completed" }, ?_, ?_, ?_⟩
    · simp [alookup_aupd, hs]
    · simpa using hs
    · simp [alookup_aupd, hs]
  · have hd2 : (resp.done || errTruthy resp.error) = false :=
      Bool.eq_false_iff.mpr hd
    simp only [hd2, Bool.false_eq_true, if_false]
    refine ⟨req, ?_, hs, ?_⟩
    · simpa [hs] using hreq
    · simp [alookup_aupd, hs]

theorem get_stream_nil (s : BridgeState) (rid : Nat)
    (hq : alookup rid s.response_queues = some []) :
    get_response rid s = (none, s) := by
  unfold get_response
  rw [hq]

theorem get_stream_cons (s : BridgeState) (rid : Nat) (r : WebLLMResponse)
    (rest : List WebLLMResponse)
    (hq : alookup rid s.response_queues = some (r :: rest)) :
    (get_response rid s).1 = some r ∧
    (get_response rid s).2.requests = s.requests ∧
    alookup rid (get_response rid s).2.response_queues = some rest := by
  unfold get_response
  rw [hq]
  exact ⟨rfl, rfl, by simp [alookup_aupd]⟩

/-! ## Claim theorems -/

/-- C10: starting from a fresh manager, after any sequence of bridge-manager
operations the request registry and the completion-event dict hold exactly
the same ids (every live request has exactly one completion signal and
conversely), and every id owning a response queue is a live request. -/
theorem C10_bridge_structural_invariant (ops : List BridgeOp) :
    Inv (applyOps ops initState) :=
  inv_applyOps ops inv_init

/-- C2 counterexample: with one live request whose completion event is not
yet set, a waiter blocked in `wait_for_completion` when `_remove_request`
destroys the entry is unblocked by the removal's `event.set()` and observes
`true` (completion), not `false` as the claim states. -/
theorem C2_wait_destroyed_counterexample :
    (alookup 0 sOne.requests).isSome = true ∧
    alookup 0 sOne.completion_events = some false ∧
    (removeRequest 0 sOne).2 = true ∧
    wait_for_completion 0 sOne (removeRequest 0 sOne).2 ≠ false := by
  decide

/-- C2 amended: destroying a live entry always signals its completion event,
so a blocked waiter is unblocked promptly (no deadlock); a call made after
the entry is gone returns `false`; but a waiter already blocked when the
entry is destroyed observes `true`, not `false`. -/
theorem C2_wait_unblocked_amended :
    (∀ (s : BridgeState) (rid : Nat),
      (alookup rid s.completion_events).isSome →
      (removeRequest rid s).2 = true) ∧
    (∀ (s : BridgeState) (rid : Nat) (setDuringWait : Bool),
      alookup rid s.completion_events = none →
      wait_for_completion rid s setDuringWait = false) ∧
    (∀ (s : BridgeState) (rid : Nat),
      alookup rid s.completion_events = some false →
      wait_for_completion rid s (removeRequest rid s).2 = true) := by
  refine ⟨?_, ?_, ?_⟩
  · intro s rid h
    simpa [removeRequest] using h
  · intro s rid d h
    simp [wait_for_completion, h]
  · intro s rid h
    simp [wait_for_completion, removeRequest, h]

/-- C2 witness: the amended statement at the concrete one-request state. -/
theorem C2_wait_unblocked_witness :
    (removeRequest 0 sOne).2 = true ∧
    wait_for_completion 0 initState false = false ∧
    wait_for_completion 0 sOne (removeRequest 0 sOne).2 = true :=
  ⟨C2_wait_unblocked_amended.1 sOne 0 (by decide),
   C2_wait_unblocked_amended.2.1 initState 0 false (by decide),
   C2_wait_unblocked_amended.2.2 sOne 0 (by decide)⟩

/-- C3 counterexample: a completed non-streaming request still in the
registry is moved back to `processing` by `mark_processing` — the state
regresses out of a terminal state, contradicting the claim. -/
theorem C3_mark_processing_regression_counterexample :
    (alookup 0 sDone.requests).map WebLLMRequest.status = some "completed" ∧
    (mark_processing 0 sDone).1 = true ∧
    (alookup 0 (mark_processing 0 sDone).2.requests).map WebLLMRequest.status
      = some "processing" := by
  decide

/-- C3 amended: `mark_processing` sets the status of any live request to
`processing` regardless of its current status (so a completed request still
in the registry regresses), leaving every other request and the other two
dicts untouched; an unknown id is rejected with no change. -/
theorem C3_mark_processing_amended (s : BridgeState) (rid : Nat) :
    (∀ req, alookup rid s.requests = some req →
      (mark_processing rid s).1 = true ∧
      alookup rid (mark_processing rid s).2.requests
        = some { req with status := "processing" } ∧
      (∀ rid2, ¬ rid2 = rid →
        alookup rid2 (mark_processing rid s).2.requests
          = alookup rid2 s.requests) ∧
      (mark_processing rid s).2.response_queues = s.response_queues ∧
      (mark_processing rid s).2.completion_events = s.completion_events) ∧
    (alookup rid s.requests = none → mark_processing rid s = (false, s)) := by
  constructor
  · intro req hreq
    unfold mark_processing
    rw [hreq]
    refine ⟨rfl, ?_, ?_, rfl, rfl⟩
    · simp [alookup_aupd]
    · intro rid2 h2
      simp [alookup_aupd, h2]
  · intro hnone
    unfold mark_processing
    rw [hnone]

/-- C3 witness: the amended statement at the completed concrete request. -/
theorem C3_mark_processing_witness :
    (mark_processing 0 sDone).1 = true ∧
    alookup 0 (mark_processing 0 sDone).2.requests
      = some { { reqNS with status := "completed" } with status := "processing" } :=
  ⟨((C3_mark_processing_amended sDone 0).1 { reqNS with status := "completed" }
      (by decide)).1,
   ((C3_mark_processing_amended sDone 0).1 { reqNS with status := "completed" }
      (by decide)).2.1⟩

/-- C1 counterexample: Scenario B — three partials then a `final=true`
response with empty content.  The fourth submitted response does not
terminate the stream: `streamStep` neither emits nor breaks on it, and
draining the queue ends unterminated with only the three content frames. -/
theorem C1_stream_empty_final_counterexample :
    alookup 0 sStream4.response_queues
      = some [respA, respB, respC, respFinalEmpty] ∧
    respFinalEmpty.done = true ∧
    errTruthy respFinalEmpty.error = false ∧
    streamStep respFinalEmpty = ([], false) ∧
    drainList [respA, respB, respC, respFinalEmpty]
      = ([Frame.delta "Hel", Frame.delta "lo", Frame.delta "!"], false) := by
  decide

/-- C1 amended: for an error-free retrieved response the stream terminates
exactly when the response is final AND carries non-empty content (the
`done` check is nested under the content check); consequently a drained
submission sequence terminates the stream iff it contains a final response
with non-empty content. -/
theorem C1_stream_completion_amended :
    (∀ r : WebLLMResponse, errTruthy r.error = false →
      (streamStep r).2 = (r.done && !r.content.isEmpty)) ∧
    (∀ rs : List WebLLMResponse, (∀ r ∈ rs, errTruthy r.error = false) →
      (drainList rs).2 = rs.any (fun r => r.done && !r.content.isEmpty)) := by
  have hstep : ∀ r : WebLLMResponse, errTruthy r.error = false →
      (streamStep r).2 = (r.done && !r.content.isEmpty) := by
    intro r h
    unfold streamStep
    rw [h]
    by_cases hc : r.content.isEmpty <;> simp [hc]
  refine ⟨hstep, ?_⟩
  intro rs h
  induction rs with
  | nil => simp [drainList]
  | cons r rest ih =>
    have hr := hstep r (h r (List.mem_cons_self _ _))
    have hrest := ih (fun x hx => h x (List.mem_cons_of_mem _ hx))
    simp only [drainList, List.any_cons]
    by_cases hd : (r.done && !r.content.isEmpty) = true
    · simp [hr, hd]
    · have hd2 : (r.done && !r.content.isEmpty) = false :=
        Bool.eq_false_iff.mpr hd
      simp [hr, hd2, hrest]

/-- C1 witness: the amended statement at a partial and an empty final
response. -/
theorem C1_stream_completion_witness :
    (streamStep respFinalEmpty).2
      = (respFinalEmpty.done && !respFinalEmpty.content.isEmpty) ∧
    (drainList [respA, respFinalEmpty]).2
      = [respA, respFinalEmpty].any (fun r => r.done && !r.content.isEmpty) :=
  ⟨C1_stream_completion_amended.1 respFinalEmpty (by decide),
   C1_stream_completion_amended.2 [respA, respFinalEmpty] (by decide)⟩

/-- C9 counterexample: `create_request` performs no validation — a
submission with no content at all yields a request with empty content and a
new registry entry, instead of being rejected before a request is created. -/
theorem C9_create_no_validation_counterexample :
    (create_request 7 5 emptyData initState).1.content = "" ∧
    (create_request 7 5 emptyData initState).2.requests.length = 1 ∧
    (alookup 7 (create_request 7 5 emptyData initState).2.requests).isSome
      = true := by
  decide

/-- C9 amended: the empty-content rejection lives in the `webllm_chat`
endpoint, not in `create_request`: when the stripped content is empty the
endpoint returns a validation error before `create_request` is ever called
and the bridge state is unchanged; otherwise it calls `create_request` with
the stripped content. -/
theorem C9_chat_guard_amended (rid now : Nat)
    (content user_message : Option String) (data : RequestData)
    (s : BridgeState) :
    ((chatContent content user_message).isEmpty = true →
      webllm_chat_create rid now content user_message data s = (none, s)) ∧
    ((chatContent content user_message).isEmpty = false →
      webllm_chat_create rid now content user_message data s =
        (some (create_request rid now
          { data with content := some (chatContent content user_message) } s).1,
         (create_request rid now
          { data with content := some (chatContent content user_message) } s).2)) := by
  constructor
  · intro h
    unfold webllm_chat_create
    simp [h]
  · intro h
    unfold webllm_chat_create
    simp [h]

/-- C4: for a live non-streaming request `submit_response` replaces the
queue with exactly the one submitted response, signals completion, and sets
the status to `completed`, regardless of the incoming `done` flag and
without touching any other id; for an unknown id it returns `false` and
changes nothing. -/
theorem C4_submit_nonstreaming_replaces (s : BridgeState) (rid : Nat)
    (resp : WebLLMResponse) :
    (∀ req, alookup rid s.requests = some req → req.stream = false →
      (submit_response rid resp s).1 = true ∧
      alookup rid (submit_response rid resp s).2.response_queues
        = some [resp] ∧
      alookup rid (submit_response rid resp s).2.requests
        = some { req with status := "completed" } ∧
      ((alookup rid s.completion_events).isSome →
        alookup rid (submit_response rid resp s).2.completion_events
          = some true) ∧
      (∀ rid2, ¬ rid2 = rid →
        alookup rid2 (submit_response rid resp s).2.requests
          = alookup rid2 s.requests ∧
        alookup rid2 (submit_response rid resp s).2.response_queues
          = alookup rid2 s.response_queues ∧
        alookup rid2 (submit_response rid resp s).2.completion_events
          = alookup rid2 s.completion_events)) ∧
    (alookup rid s.requests = none → submit_response rid resp s = (false, s)) := by
  constructor
  · intro req hreq hs
    unfold submit_response
    rw [hreq]
    simp only [hs, Bool.false_eq_true, if_false]
    refine ⟨?_, ?_, ?_, ?_, ?_⟩
    · trivial
    · simp [alookup_aupd]
    · simp [alookup_aupd]
    · intro hev
      rw [alookup_setEvent]
      simp only [if_pos rfl]
      rcases Option.isSome_iff_exists.mp hev with ⟨b, hb⟩
      rw [hb]
      rfl
    · intro rid2 h2
      refine ⟨?_, ?_, ?_⟩
      · simp [alookup_aupd, h2]
      · simp [alookup_aupd, h2]
      · rw [alookup_setEvent]
        simp [h2]
  · intro hnone
    unfold submit_response
    rw [hnone]

/-- C4 witness: the theorem at the concrete one-request state, and at an
unknown id. -/
theorem C4_submit_nonstreaming_witness :
    (submit_response 0 respDone sOne).1 = true ∧
    alookup 0 (submit_response 0 respDone sOne).2.response_queues
      = some [respDone] ∧
    alookup 0 (submit_response 0 respDone sOne).2.completion_events
      = some true ∧
    submit_response 9 respDone sOne = (false, sOne) := by
  have h := (C4_submit_nonstreaming_replaces sOne 0 respDone).1 reqNS
    (by decide) (by decide)
  exact ⟨h.1, h.2.1, h.2.2.2.1 (by decide),
    (C4_submit_nonstreaming_replaces sOne 9 respDone).2 (by decide)⟩

/-- C6: on a live streaming request, any interleaving of submissions and
polls delivers responses in exactly submission order (FIFO): the delivered
prefix followed by the remaining queue always equals the initial queue
followed by the submitted responses — no loss, no duplication, no
reordering. -/
theorem C6_streaming_fifo (tr : List StreamEvt) :
    ∀ (s : BridgeState) (rid : Nat) (req : WebLLMRequest)
      (q : List WebLLMResponse),
      alookup rid s.requests = some req → req.stream = true →
      alookup rid s.response_queues = some q →
      ∃ req' q', alookup rid (runTrace rid tr s).1.requests = some req' ∧
        req'.stream = true ∧
        alookup rid (runTrace rid tr s).1.response_queues = some q' ∧
        (runTrace rid tr s).2 ++ q' = q ++ subsOf tr := by
  induction tr with
  | nil =>
    intro s rid req q hreq hs hq
    exact ⟨req, q, hreq, hs, hq, by simp [runTrace, subsOf]⟩
  | cons e tr ih =>
    intro s rid req q hreq hs hq
    cases e with
    | sub r =>
      obtain ⟨req2, hreq2, hs2, hq2⟩ := submit_stream_state s rid r req q hreq hs hq
      obtain ⟨req', q', h1, h2, h3, h4⟩ :=
        ih (submit_response rid r s).2 rid req2 (q ++ [r]) hreq2 hs2 hq2
      refine ⟨req', q', ?_, h2, ?_, ?_⟩
      · simpa [runTrace] using h1
      · simpa [runTrace] using h3
      · simp only [runTrace, subsOf]
        rw [h4]
        simp
    | get =>
      cases q with
      | nil =>
        have hg := get_stream_nil s rid hq
        obtain ⟨req', q', h1, h2, h3, h4⟩ := ih s rid req [] hreq hs hq
        refine ⟨req', q', ?_, h2, ?_, ?_⟩
        · simpa [runTrace, hg] using h1
        · simpa [runTrace, hg] using h3
        · simp only [runTrace, subsOf, hg]
          simpa using h4
      | cons r rest =>
        have hg := get_stream_cons s rid r rest hq
        obtain ⟨req', q', h1, h2, h3, h4⟩ :=
          ih (get_response rid s).2 rid req rest
            (by rw [hg.2.1]; exact hreq) hs hg.2.2
        refine ⟨req', q', ?_, h2, ?_, ?_⟩
        · simpa [runTrace] using h1
        · simpa [runTrace] using h3
        · simp only [runTrace, subsOf, hg.1]
          simpa using h4

/-- C6 witness: the FIFO theorem at a concrete interleaved trace on the
fresh streaming request. -/
theorem C6_streaming_fifo_witness :
    ∃ req' q',
      alookup 0 (runTrace 0 trW sStream).1.requests = some req' ∧
      req'.stream = true ∧
      alookup 0 (runTrace 0 trW sStream).1.response_queues = some q' ∧
      (runTrace 0 trW sStream).2 ++ q' = [] ++ subsOf trW :=
  C6_streaming_fifo trW sStream 0 reqStream [] (by decide) (by decide)
    (by decide)

/-- C7: when a response is queued, `get_final_response` dequeues and returns
it and removes the whole registry entry (requests, queue, event), so a
second call returns `none` and `status()` counts one request fewer; other
ids are untouched; when nothing has arrived (no queue), it returns `none`
and changes nothing. -/
theorem C7_get_final_removes_entry (s : BridgeState) (rid : Nat) :
    (∀ resp rest, alookup rid s.response_queues = some (resp :: rest) →
      (get_final_response rid s).1 = some resp ∧
      alookup rid (get_final_response rid s).2.requests = none ∧
      alookup rid (get_final_response rid s).2.response_queues = none ∧
      alookup rid (get_final_response rid s).2.completion_events = none ∧
      (get_final_response rid (get_final_response rid s).2).1 = none ∧
      (∀ rid2, ¬ rid2 = rid →
        alookup rid2 (get_final_response rid s).2.requests
          = alookup rid2 s.requests ∧
        alookup rid2 (get_final_response rid s).2.response_queues
          = alookup rid2 s.response_queues ∧
        alookup rid2 (get_final_response rid s).2.completion_events
          = alookup rid2 s.completion_events) ∧
      (NoDupKeys s.requests → (alookup rid s.requests).isSome →
        get_status_total (get_final_response rid s).2 + 1
          = get_status_total s)) ∧
    (alookup rid s.response_queues = none →
      get_final_response rid s = (none, s)) := by
  constructor
  · intro resp rest hq
    have hstate : (get_final_response rid s).2 = (removeRequest rid s).1 := by
      unfold get_final_response
      rw [hq]
    have hval : (get_final_response rid s).1 = some resp := by
      unfold get_final_response
      rw [hq]
    refine ⟨hval, ?_, ?_, ?_, ?_, ?_, ?_⟩
    · rw [hstate]; simp [removeRequest, alookup_aremove]
    · rw [hstate]; simp [removeRequest, alookup_aremove]
    · rw [hstate]; simp [removeRequest, alookup_aremove]
    · have h2q : alookup rid (removeRequest rid s).1.response_queues = none := by
        simp [removeRequest, alookup_aremove]
      rw [hstate]
      unfold get_final_response
      rw [h2q]
    · intro rid2 h2
      rw [hstate]
      refine ⟨?_, ?_, ?_⟩ <;> simp [removeRequest, alookup_aremove, h2]
    · intro hnd hsome
      rw [hstate]
      unfold get_status_total
      simp only [removeRequest]
      exact length_aremove_nodup hnd hsome
  · intro hnone
    unfold get_final_response
    rw [hnone]

/-- C7 witness: the theorem at the completed concrete request and at an
id with no queue. -/
theorem C7_get_final_witness :
    (get_final_response 0 sDone).1 = some respDone ∧
    (get_final_response 0 (get_final_response 0 sDone).2).1 = none ∧
    get_status_total (get_final_response 0 sDone).2 + 1
      = get_status_total sDone ∧
    get_final_response 3 sDone = (none, sDone) := by
  have h := (C7_get_final_removes_entry sDone 0).1 respDone [] (by decide)
  exact ⟨h.1, h.2.2.2.2.1,
    h.2.2.2.2.2.2 (by unfold NoDupKeys; decide) (by decide),
    (C7_get_final_removes_entry sDone 3).2 (by decide)⟩

/-- C9 witness: whitespace-only content is rejected with the registry left
unchanged; real content reaches `create_request`. -/
theorem C9_chat_guard_witness :
    webllm_chat_create 0 5 (some "   ") none emptyData initState
      = (none, initState) ∧
    webllm_chat_create 0 5 (some " hi ") none emptyData initState
      = (some (create_request 0 5
          { emptyData with content := some (chatContent (some " hi ") none) }
          initState).1,
        (create_request 0 5
          { emptyData with content := some (chatContent (some " hi ") none) }
          initState).2) :=
  ⟨(C9_chat_guard_amended 0 5 (some "   ") none emptyData initState).1 (by decide),
   (C9_chat_guard_amended 0 5 (some " hi ") none emptyData initState).2 (by decide)⟩

/-- C5: when `create_request` runs with the registry at the configured
capacity, exactly the strictly oldest live request (by `created_at`) is
evicted, every other live request is untouched, the new request is
inserted, and the registry stays exactly at capacity; moreover any
`create_request` from a registry within capacity leaves it within
capacity. -/
theorem C5_create_capacity_eviction (rid now : Nat) (data : RequestData) :
    (∀ (s : BridgeState) (id0 : Nat) (r0 : WebLLMRequest),
      NoDupKeys s.requests →
      s.requests.length = MAX_CONCURRENT_REQUESTS →
      (id0, r0) ∈ s.requests →
      (∀ p ∈ s.requests, ¬ p.1 = id0 → r0.created_at < p.2.created_at) →
      alookup rid s.requests = none →
      alookup id0 (create_request rid now data s).2.requests = none ∧
      (∀ rid2, ¬ rid2 = id0 → ¬ rid2 = rid →
        alookup rid2 (create_request rid now data s).2.requests
          = alookup rid2 s.requests) ∧
      (alookup rid (create_request rid now data s).2.requests).isSome ∧
      (create_request rid now data s).2.requests.length
        = MAX_CONCURRENT_REQUESTS) ∧
    (∀ s : BridgeState,
      s.requests.length ≤ MAX_CONCURRENT_REQUESTS →
      (create_request rid now data s).2.requests.length
        ≤ MAX_CONCURRENT_REQUESTS) := by
  constructor
  · intro s id0 r0 hnd hlen hmem hmin hfresh
    have hid0rid : ¬ id0 = rid := by
      intro e
      have hsome := alookup_isSome_of_mem hmem
      rw [e, hfresh] at hsome
      simp at hsome
    have hev : evictIfFull s = (removeRequest id0 s).1 := by
      unfold evictIfFull
      rw [if_pos (by rw [hlen])]
      rw [oldestId_of_unique_min s.requests id0 r0 hmem hmin]
    have hred : (create_request rid now data s).2.requests
        = aupd rid (mkRequest rid now data) (aremove id0 s.requests) := by
      show aupd rid (mkRequest rid now data) (evictIfFull s).requests
        = aupd rid (mkRequest rid now data) (aremove id0 s.requests)
      rw [hev]
      rfl
    have hridid0 : ¬ rid = id0 := fun e => hid0rid e.symm
    have hfresh2 : alookup rid (aremove id0 s.requests) = none := by
      rw [alookup_aremove, if_neg hridid0, hfresh]
    refine ⟨?_, ?_, ?_, ?_⟩
    · rw [hred, alookup_aupd]
      simp only [if_neg hid0rid]
      rw [alookup_aremove]
      simp
    · intro rid2 h0 hr
      rw [hred, alookup_aupd]
      simp only [if_neg hr]
      rw [alookup_aremove]
      simp [h0]
    · rw [hred, alookup_aupd]
      simp
    · rw [hred, length_aupd, hfresh2]
      simp only [Option.isSome_none, Bool.false_eq_true, if_false]
      rw [length_aremove_nodup hnd (alookup_isSome_of_mem hmem), hlen]
  · intro s hle
    have hred : (create_request rid now data s).2.requests
        = aupd rid (mkRequest rid now data) (evictIfFull s).requests := rfl
    rw [hred]
    have hb := length_aupd_le rid (mkRequest rid now data)
      (evictIfFull s).requests
    by_cases hcap : MAX_CONCURRENT_REQUESTS ≤ s.requests.length
    · have hne : s.requests ≠ [] := by
        intro he
        rw [he] at hcap
        simp [MAX_CONCURRENT_REQUESTS] at hcap
      rcases oldestId_isSome_of_ne_nil s.requests hne with ⟨oid, hoid⟩
      have hlt : (evictIfFull s).requests.length < s.requests.length := by
        unfold evictIfFull
        rw [if_pos hcap, hoid]
        simp only [removeRequest]
        exact length_aremove_lt oid s.requests
          (oldestId_key_isSome s.requests oid hoid)
      omega
    · have heq : evictIfFull s = s := by
        unfold evictIfFull
        rw [if_neg hcap]
      rw [heq] at hb ⊢
      omega

/-- C5 witness: the eviction theorem at a full ten-request registry, and the
capacity bound at the same registry. -/
theorem C5_create_capacity_witness :
    alookup 0 (create_request 100 100 dataNS sFull).2.requests = none ∧
    (alookup 100 (create_request 100 100 dataNS sFull).2.requests).isSome ∧
    (create_request 100 100 dataNS sFull).2.requests.length
      = MAX_CONCURRENT_REQUESTS ∧
    (create_request 100 100 dataNS sFull).2.requests.length
      ≤ MAX_CONCURRENT_REQUESTS := by
  have h := (C5_create_capacity_eviction 100 100 dataNS).1 sFull 0 reqFull0
    (by unfold NoDupKeys; decide) (by decide) (by decide) (by decide)
    (by decide)
  exact ⟨h.1, h.2.2.1, h.2.2.2,
    (C5_create_capacity_eviction 100 100 dataNS).2 sFull (by decide)⟩

/-- C8: a cleanup cycle at time `now` removes exactly the registry entries
whose age strictly exceeds the TTL — their request, queue and completion
event vanish and, when a completion event existed, it is signalled
(`(id, true)` in the removal log) — while every younger entry is left
untouched; hence a never-completed request created at `T` is gone from the
registry once a cleanup runs at any time `≥ T + TTL + 1`. -/
theorem C8_cleanup_removes_exactly_expired (now : Nat) (s : BridgeState)
    (rid : Nat) (req : WebLLMRequest) (hnd : NoDupKeys s.requests)
    (hreq : alookup rid s.requests = some req) :
    (REQUEST_TTL < now - req.created_at →
      alookup rid (cleanup_expired_requests now s).1.requests = none ∧
      alookup rid (cleanup_expired_requests now s).1.response_queues
        = none ∧
      alookup rid (cleanup_expired_requests now s).1.completion_events
        = none ∧
      ((alookup rid s.completion_events).isSome →
        (rid, true) ∈ (cleanup_expired_requests now s).2)) ∧
    (now - req.created_at ≤ REQUEST_TTL →
      alookup rid (cleanup_expired_requests now s).1.requests = some req ∧
      alookup rid (cleanup_expired_requests now s).1.response_queues
        = alookup rid s.response_queues ∧
      alookup rid (cleanup_expired_requests now s).1.completion_events
        = alookup rid s.completion_events) ∧
    (req.created_at + REQUEST_TTL + 1 ≤ now →
      alookup rid (cleanup_expired_requests now s).1.requests = none) := by
  have hlk := cleanupFold_lookup (expiredIds now s) s [] rid
  have hforward : REQUEST_TTL < now - req.created_at →
      alookup rid (cleanup_expired_requests now s).1.requests = none ∧
      alookup rid (cleanup_expired_requests now s).1.response_queues
        = none ∧
      alookup rid (cleanup_expired_requests now s).1.completion_events
        = none ∧
      ((alookup rid s.completion_events).isSome →
        (rid, true) ∈ (cleanup_expired_requests now s).2) := by
    intro hexp
    have hmem : rid ∈ expiredIds now s :=
      (mem_expiredIds_iff now s rid hnd).mpr ⟨req, hreq, hexp⟩
    refine ⟨?_, ?_, ?_, ?_⟩
    · rw [show (cleanup_expired_requests now s).1
          = (cleanupFold (s, []) (expiredIds now s)).1 from rfl]
      rw [hlk.1, if_pos hmem]
    · rw [show (cleanup_expired_requests now s).1
          = (cleanupFold (s, []) (expiredIds now s)).1 from rfl]
      rw [hlk.2.1, if_pos hmem]
    · rw [show (cleanup_expired_requests now s).1
          = (cleanupFold (s, []) (expiredIds now s)).1 from rfl]
      rw [hlk.2.2, if_pos hmem]
    · intro hev
      exact cleanupFold_signals (expiredIds now s) s [] rid hmem hev
  refine ⟨hforward, ?_, ?_⟩
  · intro hyoung
    have hnmem : rid ∉ expiredIds now s := by
      intro hm
      rcases (mem_expiredIds_iff now s rid hnd).mp hm with ⟨req', hreq', hcond⟩
      rw [hreq] at hreq'
      cases hreq'
      omega
    refine ⟨?_, ?_, ?_⟩
    · rw [show (cleanup_expired_requests now s).1
          = (cleanupFold (s, []) (expiredIds now s)).1 from rfl]
      rw [hlk.1, if_neg hnmem, hreq]
    · rw [show (cleanup_expired_requests now s).1
          = (cleanupFold (s, []) (expiredIds now s)).1 from rfl]
      rw [hlk.2.1, if_neg hnmem]
    · rw [show (cleanup_expired_requests now s).1
          = (cleanupFold (s, []) (expiredIds now s)).1 from rfl]
      rw [hlk.2.2, if_neg hnmem]
  · intro harith
    refine (hforward ?_).1
    unfold REQUEST_TTL at harith ⊢
    omega

/-- C8 witness: the concrete request created at time 5 is removed (with its
waiter signalled) by a cleanup at time 700 but untouched by one at
time 100. -/
theorem C8_cleanup_witness :
    alookup 0 (cleanup_expired_requests 700 sOne).1.requests = none ∧
    (0, true) ∈ (cleanup_expired_requests 700 sOne).2 ∧
    alookup 0 (cleanup_expired_requests 100 sOne).1.requests = some reqNS := by
  have h1 := (C8_cleanup_removes_exactly_expired 700 sOne 0 reqNS
    (by unfold NoDupKeys; decide) (by decide)).1 (by decide)
  have h2 := ((C8_cleanup_removes_exactly_expired 100 sOne 0 reqNS
    (by unfold NoDupKeys; decide) (by decide)).2.1 (by decide)).1
  exact ⟨h1.1, h1.2.2.2 (by decide), h2⟩

end WebLLMBridge
